import Mathlib

/-!
Shallow embedding of the `arducam-tof` repository: the camera wrapper in
`src/lib.rs` and the point-cloud examples (`examples/point_cloud_client.rs`,
`examples/point_cloud.rs`, `examples/point_cloud_server.rs`).

Conventions of the embedding:
* `f32` samples, depths and confidences are modelled as rationals (`ℚ`);
  everything the claims touch is field arithmetic and order comparisons on
  values where `f32` and `ℚ` agree.  For the wire codec the `f32` values are
  modelled by their 32-bit IEEE-754 bit patterns (`ℕ` below `2 ^ 32`), which
  is exactly what bincode moves over the wire.
* Rust computations that can panic (`todo!`, `.unwrap()`) return an
  `Outcome`; calls into the native driver are recorded in a trace list and
  the driver's status codes are passed in as explicit arguments.
-/

namespace ArducamTof

/-- Result of running a Rust computation that may panic: either a value or a
panic with a message (`todo!`, `unwrap`). -/
inductive Outcome (α : Type) where
  | ok : α → Outcome α
  | diverge : String → Outcome α
deriving DecidableEq, Repr

/-- The Rust `NonZero<c_int>` payload carried by the error types. -/
def NonZeroInt := { n : Int // n ≠ 0 }

/-- `NonZero::new`: `some` exactly on non-zero status codes. -/
def nonZeroNew (status : Int) : Option NonZeroInt :=
  if h : status = 0 then none else some ⟨status, h⟩

/-- `CloseError(NonZero<c_int>)` from src/lib.rs. -/
structure CloseError where
  code : NonZeroInt

/-- `StopError(NonZero<c_int>)` from src/lib.rs. -/
structure StopError where
  code : NonZeroInt

/-- The two native teardown entry points of the driver that
`Drop for ArducamDepthCamera` can reach. -/
inductive NativeCall where
  | stop
  | close
deriving DecidableEq, Repr

/-- The state of `ArducamDepthCamera` (src/lib.rs): the raw handle is
irrelevant to the claims, the two lifecycle flags are the model. -/
structure ArducamDepthCamera where
  opened : Bool
  started : Bool
deriving DecidableEq, Repr

/-- `ArducamDepthCamera::close` (src/lib.rs lines 93-107).  The body
evaluates `arducamCameraClose(todo!("blocked by ..."))`: the `todo!` panics
while the argument is evaluated, before the native close is ever entered, so
the `match NonZero::new(status)` that follows is dead code.  The function
returns the native calls it performed together with the outcome;
`closeStatus` is the status the native call would have returned and is never
consulted. -/
def ArducamDepthCamera.close (_cam : ArducamDepthCamera) (_closeStatus : Int) :
    List NativeCall × Outcome (Except CloseError Unit × ArducamDepthCamera) :=
  ([], Outcome.diverge
    "not yet implemented: blocked by https://github.com/ArduCAM/Arducam_tof_camera/issues/78")

/-- `ArducamDepthCamera::stop` (src/lib.rs lines 109-118): performs the
native stop, returns `Err(StopError(code))` on a non-zero status, and clears
the `started` flag on success. -/
def ArducamDepthCamera.stop (cam : ArducamDepthCamera) (stopStatus : Int) :
    List NativeCall × Outcome (Except StopError Unit × ArducamDepthCamera) :=
  ([NativeCall.stop],
    match nonZeroNew stopStatus with
    | some e => Outcome.ok (Except.error ⟨e⟩, cam)
    | none => Outcome.ok (Except.ok (), { cam with started := false }))

/-- The `if self.opened { self.close().unwrap(); }` half of
`Drop for ArducamDepthCamera` (src/lib.rs lines 144-146). -/
def dropClosePhase (cam : ArducamDepthCamera) (closeStatus : Int) :
    List NativeCall × Outcome Unit :=
  if cam.opened then
    match cam.close closeStatus with
    | (t, Outcome.diverge msg) => (t, Outcome.diverge msg)
    | (t, Outcome.ok (Except.error _, _)) => (t, Outcome.diverge "unwrap on CloseError")
    | (t, Outcome.ok (Except.ok _, _)) => (t, Outcome.ok ())
  else ([], Outcome.ok ())

/-- `Drop::drop for ArducamDepthCamera` (src/lib.rs lines 138-148):
`if self.started { self.stop().unwrap(); } if self.opened { self.close().unwrap(); }`.
Returns the trace of native teardown calls and the outcome. -/
def ArducamDepthCamera.dropCamera (cam : ArducamDepthCamera)
    (stopStatus closeStatus : Int) : List NativeCall × Outcome Unit :=
  if cam.started then
    match cam.stop stopStatus with
    | (t, Outcome.diverge msg) => (t, Outcome.diverge msg)
    | (t, Outcome.ok (Except.error _, _)) => (t, Outcome.diverge "unwrap on StopError")
    | (t, Outcome.ok (Except.ok _, cam1)) =>
      match dropClosePhase cam1 closeStatus with
      | (t2, o) => (t ++ t2, o)
  else dropClosePhase cam closeStatus

/-- Rust `std::time::Duration`: whole seconds and a sub-second nanosecond
part (the `nanos < 10 ^ 9` invariant is irrelevant to the claims). -/
structure Duration where
  secs : ℕ
  nanos : ℕ
deriving DecidableEq, Repr

/-- `Duration::as_millis`: the whole-millisecond count, as the (never
overflowing) `u128` value. -/
def Duration.as_millis (d : Duration) : ℕ :=
  d.secs * 1000 + d.nanos / 1000000

/-- The Rust `as` cast from `u128` to a 32-bit signed `c_int`: wrap modulo
`2 ^ 32`, then read as two's complement. -/
def castToCInt (n : ℕ) : ℤ :=
  if n % 2 ^ 32 < 2 ^ 31 then ((n % 2 ^ 32 : ℕ) : ℤ)
  else ((n % 2 ^ 32 : ℕ) : ℤ) - 2 ^ 32

/-- The timeout argument `ArducamDepthCamera::request_frame` hands to the
native `arducamCameraRequestFrame` (src/lib.rs lines 124-127):
`None => -1`, `Some(t) => t.as_millis() as c_int`. -/
def requestFrameTimeoutArg (timeout : Option Duration) : ℤ :=
  match timeout with
  | some t => castToCInt t.as_millis
  | none => -1

/-- `FrameData<T>` (src/lib.rs lines 224-228): a row-major frame buffer view
with its backing slice. -/
structure FrameData (T : Type) where
  width : ℕ
  height : ℕ
  data : List T

/-- `FrameData::get` (src/lib.rs lines 232-236):
`self.data.get(x as usize + y as usize * self.width as usize).copied()`. -/
def FrameData.get {T : Type} (f : FrameData T) (x y : ℕ) : Option T :=
  f.data[x + y * f.width]?

/-- The point record sent over the wire (`MyPoint` in
examples/point_cloud_client.rs and examples/point_cloud_server.rs), with the
`f32` fields as rationals. -/
structure MyPoint where
  x : ℚ
  y : ℚ
  z : ℚ
  confidence : ℚ
deriving DecidableEq, Repr

/-- The per-frame point-batch construction of the producer loop
(examples/point_cloud_client.rs lines 40-64).  The iterator chain enumerates
the row-major depth slice, zips it with the confidence slice, and maps index
`i` to `(i % width, i / width, d, c)`; the loop then binds that tuple as
`(row, column, d, c)` and pushes
`z = d`, `x = ((width / 2) as f32 - column) / fx * z`,
`y = ((height / 2) as f32 - row) / fy * z`
(`width / 2` and `height / 2` are `u16` integer divisions).  `fx` and `fy`
stand for the focal constants the source computes from the fixed fields of
view with `f32::tan` (`width / (2 * tan(0.5 * HFOV))` and
`height / (2 * tan(0.5 * VFOV))`); they are parameters here because `tan` is
transcendental, and every theorem below quantifies over them. -/
def projectFrame (width height : ℕ) (fx fy : ℚ) (depth conf : List ℚ) :
    List MyPoint :=
  (depth.enum.zip conf).map (fun pc =>
    let i := pc.1.1
    let d := pc.1.2
    let c := pc.2
    let row := i % width
    let column := i / width
    let z := d
    let x := (((width / 2 : ℕ) : ℚ) - (column : ℚ)) / fx * z
    let y := (((height / 2 : ℕ) : ℚ) - (row : ℚ)) / fy * z
    { x := x, y := y, z := z, confidence := c })

/-- Modelled from the spec, §4.2: the point the specification's formula
assigns to the cell at `(row, column)`:
`x = ((width/2 - column) / fx) * d`, `y = ((height/2 - row) / fy) * d`,
`z = d`.  Used only to compare the source's projector against the
specification's formula. -/
def specPoint (width height : ℕ) (fx fy : ℚ) (row column : ℕ) (d c : ℚ) :
    MyPoint :=
  { x := ((width : ℚ) / 2 - (column : ℚ)) / fx * d
    y := ((height : ℚ) / 2 - (row : ℚ)) / fy * d
    z := d
    confidence := c }

/-- The live display-filter parameters of the consumer (`AppState` fields
`max_depth`, `min_depth`, `confidence_range` in
examples/point_cloud_server.rs; the `RangeInclusive<f32>` is its
start/end pair). -/
structure FilterState where
  max_depth : Option ℚ
  min_depth : Option ℚ
  confidence_range : Option (ℚ × ℚ)
deriving DecidableEq, Repr

/-- The drop test of the render loop (examples/point_cloud_server.rs lines
76-80): `self.max_depth.is_some_and(|m| point.z > m)
|| self.min_depth.is_some_and(|m| point.z < m)`. -/
def droppedPoint (st : FilterState) (p : MyPoint) : Bool :=
  (match st.max_depth with
   | some max_depth => decide (p.z > max_depth)
   | none => false) ||
  (match st.min_depth with
   | some min_depth => decide (p.z < min_depth)
   | none => false)

/-- The colour the render loop assigns to a kept point
(examples/point_cloud_server.rs lines 82-108), as an (r, g, b) triple. -/
def confidenceColour (confidence_range : Option (ℚ × ℚ)) (c : ℚ) :
    ℚ × ℚ × ℚ :=
  match confidence_range with
  | some range =>
    let low := range.1
    let high := range.2
    if low < high then
      if c < low then (1, 0, 0)
      else if c > high then (0, 1, 0)
      else
        let confidence := (c - low) / (high - low)
        (1 - confidence, confidence, 0)
    else
      if c > low then (1, 0, 0)
      else if c < high then (0, 1, 0)
      else
        let confidence := (c - low) / (high - low)
        (1 - confidence, confidence, 0)
  | none => (1, 1, 1)

/-- One render tick over a received batch (the `for point in points` loop of
`AppState::step`, examples/point_cloud_server.rs lines 75-112): dropped
points are skipped (`continue`), kept points are pushed as a
(position, colour) pair. -/
def renderTick (st : FilterState) (points : List MyPoint) :
    List ((ℚ × ℚ × ℚ) × (ℚ × ℚ × ℚ)) :=
  points.filterMap (fun p =>
    if droppedPoint st p then none
    else some ((p.x, p.y, p.z), confidenceColour st.confidence_range p.confidence))

/-- The filtering stage of a render tick in isolation: the sub-batch of
points `renderTick` keeps. -/
def filterBatch (st : FilterState) (points : List MyPoint) : List MyPoint :=
  points.filter (fun p => ! droppedPoint st p)

/-- Rust `&str` contents, modelled as the list of characters. -/
abbrev RStr := List Char

/-- Leading-whitespace removal, the building block of `str::trim`. -/
def trimLeftChars : RStr → RStr
  | [] => []
  | c :: cs => if c.isWhitespace then trimLeftChars cs else c :: cs

/-- Rust `str::trim`: strip leading and trailing whitespace. -/
def trimChars (s : RStr) : RStr :=
  ((trimLeftChars (trimLeftChars s).reverse)).reverse

/-- Rust `str::starts_with` on our character-list strings. -/
def isPrefOf : RStr → RStr → Bool
  | [], _ => true
  | _ :: _, [] => false
  | a :: as, b :: bs => a = b && isPrefOf as bs

/-- Rust `str::split_once(' ')`: the part before the first space and the
part after it, or `none` when the string has no space. -/
def splitOnceSpace (s : RStr) : Option (RStr × RStr) :=
  match s.dropWhile (fun c => c ≠ ' ') with
  | [] => none
  | _ :: after => some (s.takeWhile (fun c => c ≠ ' '), after)

/-- The `Command` enum of examples/point_cloud_server.rs (lines 265-269). -/
inductive Command where
  | setMaxDepth : Option ℚ → Command
  | setMinDepth : Option ℚ → Command
  | setConfidenceRange : Option (ℚ × ℚ) → Command
deriving DecidableEq, Repr

/-- What one iteration of `control_thread` does with a line: send a command
on the channel, print a report, or nothing. -/
inductive ControlEffect where
  | send : Command → ControlEffect
  | print : String → ControlEffect
  | nop : ControlEffect
deriving DecidableEq, Repr

def clearMaxDepthCmd : RStr := "clear max depth".data
def clearMinDepthCmd : RStr := "clear min depth".data
def clearConfRangeCmd : RStr := "clear confidence range".data
def setMaxDepthCmd : RStr := "set max depth ".data
def setMinDepthCmd : RStr := "set min depth ".data
def setConfRangeCmd : RStr := "set confidence range ".data

/-- One iteration of `control_thread` (examples/point_cloud_server.rs lines
275-331): trim the line, then the `match` over the recognised forms.
`parse` stands for `str::parse::<f32>` (an external standard-library
routine); the theorems quantify over it.  Parse-error reports carry the
standard library's message text, which the claims do not constrain; a fixed
string stands in for it. -/
def controlLine (parse : RStr → Option ℚ) (raw : RStr) : ControlEffect :=
  let input := trimChars raw
  if input = [] then ControlEffect.nop
  else if input = clearMaxDepthCmd then ControlEffect.send (Command.setMaxDepth none)
  else if input = clearMinDepthCmd then ControlEffect.send (Command.setMinDepth none)
  else if input = clearConfRangeCmd then
    ControlEffect.send (Command.setConfidenceRange none)
  else if isPrefOf setMaxDepthCmd input then
    match parse (input.drop setMaxDepthCmd.length) with
    | some max_depth => ControlEffect.send (Command.setMaxDepth (some max_depth))
    | none => ControlEffect.print "invalid float literal"
  else if isPrefOf setMinDepthCmd input then
    match parse (input.drop setMinDepthCmd.length) with
    | some min_depth => ControlEffect.send (Command.setMinDepth (some min_depth))
    | none => ControlEffect.print "invalid float literal"
  else if isPrefOf setConfRangeCmd input then
    match splitOnceSpace (input.drop setConfRangeCmd.length) with
    | none => ControlEffect.print "set confidence range <LOW> <HIGH>"
    | some (lowS, highS) =>
      match parse lowS with
      | none => ControlEffect.print "Bad lower bound: invalid float literal"
      | some low =>
        match parse highS with
        | none => ControlEffect.print "Bad higher bound: invalid float literal"
        | some high =>
          ControlEffect.send (Command.setConfidenceRange (some (low, high)))
  else ControlEffect.print "Unrecognised input"

/-- How `AppState::step` applies a received command to the filter state
(examples/point_cloud_server.rs lines 62-67). -/
def applyCommand (st : FilterState) : Command → FilterState
  | Command.setMaxDepth v => { st with max_depth := v }
  | Command.setMinDepth v => { st with min_depth := v }
  | Command.setConfidenceRange v => { st with confidence_range := v }

/-- The filter state after one control-thread iteration: only a sent
command reaches `AppState::step`; a printed report or a no-op leaves the
state untouched. -/
def stepFilterState (st : FilterState) : ControlEffect → FilterState
  | ControlEffect.send c => applyCommand st c
  | ControlEffect.print _ => st
  | ControlEffect.nop => st

/-- A point as it crosses the wire: the IEEE-754 bit patterns of the four
`f32` fields of `MyPoint`, each a natural below `2 ^ 32`.  bincode
serializes an `f32` as exactly its four little-endian bytes, so the bit
pattern is the whole wire content of a field, and bit-pattern equality is
float equality for every value the producer can emit. -/
structure WirePoint where
  x : ℕ
  y : ℕ
  z : ℕ
  confidence : ℕ
deriving DecidableEq, Repr

/-- The fields really are 32-bit patterns. -/
def WirePoint.valid (p : WirePoint) : Prop :=
  p.x < 2 ^ 32 ∧ p.y < 2 ^ 32 ∧ p.z < 2 ^ 32 ∧ p.confidence < 2 ^ 32

instance (p : WirePoint) : Decidable p.valid := by
  unfold WirePoint.valid; infer_instance

/-- The four little-endian bytes of a 32-bit value (how bincode writes an
`f32` bit pattern, and the `252`-tagged varint payload). -/
def u32Bytes (n : ℕ) : List ℕ :=
  [n % 256, n / 256 % 256, n / 256 ^ 2 % 256, n / 256 ^ 3 % 256]

/-- Recombine four little-endian bytes. -/
def readU32 (b0 b1 b2 b3 : ℕ) : ℕ :=
  b0 + 256 * (b1 + 256 * (b2 + 256 * b3))

/-- bincode `DefaultOptions` varint encoding of a `u64` (the sequence-length
prefix of a `Vec`): one byte below 251, tag 251 plus two little-endian bytes
below `2 ^ 16`, tag 252 plus four bytes below `2 ^ 32`, tag 253 plus eight
bytes otherwise. -/
def encodeVarint (n : ℕ) : List ℕ :=
  if n < 251 then [n]
  else if n < 2 ^ 16 then 251 :: [n % 256, n / 256 % 256]
  else if n < 2 ^ 32 then 252 :: u32Bytes n
  else 253 :: (u32Bytes (n % 2 ^ 32) ++ u32Bytes (n / 2 ^ 32))

/-- bincode `DefaultOptions` varint decoding of a `u64` from a byte stream:
the value and the unconsumed rest of the stream, or `none` if the stream is
too short (a tag of 254 or 255 announces a `u128`, which a `u64` read
rejects). -/
def decodeVarint : List ℕ → Option (ℕ × List ℕ)
  | [] => none
  | b :: rest =>
    if b < 251 then some (b, rest)
    else if b = 251 then
      match rest with
      | b0 :: b1 :: r => some (b0 + 256 * b1, r)
      | _ => none
    else if b = 252 then
      match rest with
      | b0 :: b1 :: b2 :: b3 :: r => some (readU32 b0 b1 b2 b3, r)
      | _ => none
    else if b = 253 then
      match rest with
      | b0 :: b1 :: b2 :: b3 :: b4 :: b5 :: b6 :: b7 :: r =>
        some (readU32 b0 b1 b2 b3 + 2 ^ 32 * readU32 b4 b5 b6 b7, r)
      | _ => none
    else none

/-- bincode serialization of one `MyPoint` (serde derive: the four `f32`
fields in declaration order, four little-endian bytes each). -/
def encodePoint (p : WirePoint) : List ℕ :=
  u32Bytes p.x ++ u32Bytes p.y ++ u32Bytes p.z ++ u32Bytes p.confidence

/-- bincode deserialization of one `MyPoint`: sixteen bytes, or `none` if
the stream is shorter. -/
def decodePoint : List ℕ → Option (WirePoint × List ℕ)
  | b0 :: b1 :: b2 :: b3 :: c0 :: c1 :: c2 :: c3 ::
    d0 :: d1 :: d2 :: d3 :: e0 :: e1 :: e2 :: e3 :: r =>
    some ({ x := readU32 b0 b1 b2 b3
            y := readU32 c0 c1 c2 c3
            z := readU32 d0 d1 d2 d3
            confidence := readU32 e0 e1 e2 e3 }, r)
  | _ => none

/-- Deserialize `n` consecutive points. -/
def decodePoints : ℕ → List ℕ → Option (List WirePoint × List ℕ)
  | 0, s => some ([], s)
  | n + 1, s =>
    match decodePoint s with
    | none => none
    | some (p, r) =>
      match decodePoints n r with
      | none => none
      | some (ps, r2) => some (p :: ps, r2)

/-- One wire message: `points.serialize(...)` in
examples/point_cloud_client.rs line 66 — the varint length prefix followed
by the point records back to back. -/
def encodeBatch (ps : List WirePoint) : List ℕ :=
  encodeVarint ps.length ++ ps.flatMap encodePoint

/-- One `Vec::<MyPoint>::deserialize(...)` of the consumer
(examples/point_cloud_server.rs line 260, with
`DefaultOptions::new().allow_trailing_bytes()`): read the length prefix,
then exactly that many point records, and return the untouched rest of the
stream. -/
def decodeBatch (s : List ℕ) : Option (List WirePoint × List ℕ) :=
  match decodeVarint s with
  | none => none
  | some (n, r) => decodePoints n r

/-! Helper lemmas shared by the claim theorems. -/

theorem isPrefOf_append_self (p xs : RStr) : isPrefOf p (p ++ xs) = true := by
  induction p with
  | nil => rfl
  | cons a as ih => simp [isPrefOf, ih]

theorem isPrefOf_append_of_le (p l xs : RStr) (h : p.length ≤ l.length) :
    isPrefOf p (l ++ xs) = isPrefOf p l := by
  induction p generalizing l with
  | nil => rfl
  | cons a as ih =>
    cases l with
    | nil => simp at h
    | cons b bs =>
      simp only [List.cons_append, isPrefOf, List.append_eq]
      rw [ih bs (by simpa using h)]

/-! Theorems for the claims. -/

/-- C2: the claim says `ArducamDepthCamera::close` returns
`Err(CloseError(code))` exactly when the native close returns a non-zero
status, returns `Ok(())` and clears `opened` on a zero status, and always
reports failure through its `Result` rather than diverging.  The source
instead evaluates `todo!("blocked by ...")` while building the argument of
the native call: for every camera state and every status the native close
would have returned, `close` performs no native call and panics, never
producing any `Result` value. -/
theorem close_always_panics (cam : ArducamDepthCamera) (closeStatus : Int) :
    (cam.close closeStatus).1 = [] ∧
    ∀ r, (cam.close closeStatus).2 ≠ Outcome.ok r :=
  ⟨rfl, fun _ h => Outcome.noConfusion h⟩

/-- C7: the claim says drop invokes native stop iff `started`, afterwards
native close iff `opened` (in that order), that any non-zero teardown
status panics, and that a never-opened, never-started camera performs no
native teardown calls.  On a camera with both flags set and a clean stop
status, the source's drop performs the native stop and then panics inside
`close` (its `todo!`) before any native close is made: the teardown trace is
`[stop]` alone even though `opened` is set, refuting the
close-iff-opened half of the claim; the no-flags case does perform no
calls. -/
theorem dropCamera_opened_panics_before_native_close (closeStatus : Int) :
    ((ArducamDepthCamera.mk true true).dropCamera 0 closeStatus).1 =
      [NativeCall.stop] ∧
    (∃ msg, ((ArducamDepthCamera.mk true true).dropCamera 0 closeStatus).2 =
      Outcome.diverge msg) ∧
    (ArducamDepthCamera.mk false false).dropCamera 0 closeStatus =
      ([], Outcome.ok ()) :=
  ⟨rfl, ⟨_, rfl⟩, rfl⟩

/-- C9: for a `FrameData` of width `w` and height `h` over a backing slice
of length `w * h`, `get x y` returns `some` of the sample at linear index
`x + y * w` whenever that index is below `w * h`, and `none` exactly when it
is not; there is no per-coordinate bound check, so `x ≥ w` with the linear
index still in range returns a sample from a later row (on the 2×2 frame
`[10, 20, 30, 40]`, `get 3 0` is `some 40`). -/
theorem FrameData_get_linear_index {T : Type} (f : FrameData T) (x y : ℕ)
    (hlen : f.data.length = f.width * f.height) :
    (x + y * f.width < f.width * f.height →
      ∃ hlt : x + y * f.width < f.data.length,
        f.get x y = some (f.data.get ⟨x + y * f.width, hlt⟩)) ∧
    (f.width * f.height ≤ x + y * f.width → f.get x y = none) ∧
    (FrameData.mk 2 2 [10, 20, 30, 40] : FrameData ℕ).get 3 0 = some 40 := by
  refine ⟨?_, ?_, rfl⟩
  · intro hin
    have hlt : x + y * f.width < f.data.length := by omega
    exact ⟨hlt, by simp [FrameData.get, List.getElem?_eq_getElem hlt]⟩
  · intro hout
    rw [FrameData.get, List.getElem?_eq_none]
    omega

/-- Closed witness for C9's theorem: on the 2×2 frame `[10, 20, 30, 40]`,
the linear index of `(x, y) = (0, 2)` is 4, out of range, and `get` returns
`none`. -/
theorem FrameData_get_linear_index_witness :
    (FrameData.mk 2 2 [10, 20, 30, 40] : FrameData ℕ).get 0 2 = none :=
  (FrameData_get_linear_index (FrameData.mk 2 2 [10, 20, 30, 40]) 0 2
    (by decide)).2.1 (by decide)

/-- C10: `request_frame` passes a `None` timeout to the native driver as
`-1` (wait indefinitely) and `Some(d)` as `d`'s whole-millisecond count cast
from `u128` to a 32-bit C int by wrapping modulo `2 ^ 32` (two's
complement); consequently every duration whose millisecond count is at
least `2 ^ 31` and below `2 ^ 32` reaches the driver as a negative value,
not as the requested finite timeout. -/
theorem requestFrame_timeout_conversion :
    requestFrameTimeoutArg none = -1 ∧
    (∀ d : Duration,
      -2 ^ 31 ≤ requestFrameTimeoutArg (some d) ∧
      requestFrameTimeoutArg (some d) < 2 ^ 31 ∧
      requestFrameTimeoutArg (some d) % 2 ^ 32 = (d.as_millis : ℤ) % 2 ^ 32) ∧
    (∀ d : Duration, 2 ^ 31 ≤ d.as_millis → d.as_millis < 2 ^ 32 →
      requestFrameTimeoutArg (some d) < 0 ∧
      requestFrameTimeoutArg (some d) ≠ (d.as_millis : ℤ)) := by
  refine ⟨rfl, ?_, ?_⟩
  · intro d
    simp only [requestFrameTimeoutArg, castToCInt]
    refine ⟨?_, ?_, ?_⟩ <;> (split <;> push_cast <;> omega)
  · intro d h1 h2
    simp only [requestFrameTimeoutArg, castToCInt]
    refine ⟨?_, ?_⟩ <;> (split <;> push_cast <;> omega)

/-- Closed witness for C10's theorem: a duration of 3 000 000 whole seconds
has millisecond count `3 * 10 ^ 9 ∈ [2 ^ 31, 2 ^ 32)` and reaches the driver
negative. -/
theorem requestFrame_timeout_conversion_witness :
    requestFrameTimeoutArg (some (Duration.mk 3000000 0)) < 0 ∧
    requestFrameTimeoutArg (some (Duration.mk 3000000 0)) ≠
      ((Duration.mk 3000000 0).as_millis : ℤ) :=
  requestFrame_timeout_conversion.2.2 (Duration.mk 3000000 0)
    (by norm_num [Duration.as_millis]) (by norm_num [Duration.as_millis])

/-- C4: per render tick, a received point is dropped exactly when
`max_depth` is set and `point.z` exceeds it, or `min_depth` is set and
`point.z` is below it; with neither bound set no point is dropped
(the rendered pairs are the kept points with their colours); and applying
the same `FilterState` to an already-filtered batch changes nothing
(idempotence). -/
theorem renderTick_filtering (st : FilterState) (p : MyPoint)
    (ps : List MyPoint) :
    (droppedPoint st p = true ↔
      (∃ m, st.max_depth = some m ∧ m < p.z) ∨
      (∃ m, st.min_depth = some m ∧ p.z < m)) ∧
    (st.max_depth = none → st.min_depth = none → filterBatch st ps = ps) ∧
    (renderTick st ps = (filterBatch st ps).map (fun q =>
      ((q.x, q.y, q.z), confidenceColour st.confidence_range q.confidence))) ∧
    filterBatch st (filterBatch st ps) = filterBatch st ps := by
  refine ⟨?_, ?_, ?_, ?_⟩
  · cases hm : st.max_depth <;> cases hn : st.min_depth <;>
      simp [droppedPoint, hm, hn, gt_iff_lt]
  · intro hmax hmin
    simp [filterBatch, droppedPoint, hmax, hmin]
  · induction ps with
    | nil => rfl
    | cons q qs ih =>
      simp only [renderTick, filterBatch, List.filterMap_cons, List.filter_cons] at *
      cases h : droppedPoint st q <;> simp [h, ih]
  · rw [filterBatch, filterBatch, List.filter_filter]
    congr 1
    funext q
    cases droppedPoint st q <;> rfl

/-- Closed witness for C4's theorem: with no bounds set, the
singleton batch of the origin point with depth 2 is kept unchanged. -/
theorem renderTick_filtering_witness :
    filterBatch (FilterState.mk none none none)
      [MyPoint.mk 0 0 2 1] = [MyPoint.mk 0 0 2 1] :=
  (renderTick_filtering (FilterState.mk none none none) (MyPoint.mk 0 0 2 1)
    [MyPoint.mk 0 0 2 1]).2.1 rfl rfl

/-- C5: with `confidence_range = (low, high)` and `low < high`, a kept point
is coloured pure red when its confidence is below `low`, pure green when
above `high`, and otherwise `(1 - t, t, 0)` with
`t = (confidence - low) / (high - low)`; with `low ≥ high` the comparison
directions invert (above `low` red, below `high` green, otherwise the same
interpolation); with no range set every point gets the neutral `(1, 1, 1)`.
In particular with range `(0.2, 0.8)`: confidence 0 is pure red, 1 is pure
green, 0.5 gives `(0.5, 0.5, 0)`; with the inverted range `(0.8, 0.2)`:
confidence 0.9 is red and 0.1 is green. -/
theorem confidenceColour_cases (low high c : ℚ) :
    (low < high →
      (c < low → confidenceColour (some (low, high)) c = (1, 0, 0)) ∧
      (high < c → confidenceColour (some (low, high)) c = (0, 1, 0)) ∧
      (low ≤ c → c ≤ high →
        confidenceColour (some (low, high)) c =
          (1 - (c - low) / (high - low), (c - low) / (high - low), 0))) ∧
    (high ≤ low →
      (low < c → confidenceColour (some (low, high)) c = (1, 0, 0)) ∧
      (c < high → confidenceColour (some (low, high)) c = (0, 1, 0)) ∧
      (c ≤ low → high ≤ c →
        confidenceColour (some (low, high)) c =
          (1 - (c - low) / (high - low), (c - low) / (high - low), 0))) ∧
    confidenceColour none c = (1, 1, 1) ∧
    confidenceColour (some (1/5, 4/5)) 0 = (1, 0, 0) ∧
    confidenceColour (some (1/5, 4/5)) 1 = (0, 1, 0) ∧
    confidenceColour (some (1/5, 4/5)) (1/2) = (1/2, 1/2, 0) ∧
    confidenceColour (some (4/5, 1/5)) (9/10) = (1, 0, 0) ∧
    confidenceColour (some (4/5, 1/5)) (1/10) = (0, 1, 0) := by
  refine ⟨?_, ?_, rfl, ?_, ?_, ?_, ?_, ?_⟩
  · intro hlt
    refine ⟨?_, ?_, ?_⟩
    · intro h; simp [confidenceColour, hlt, h]
    · intro h
      simp [confidenceColour, hlt, h, not_lt.mpr (le_of_lt (hlt.trans h))]
    · intro h1 h2
      simp [confidenceColour, hlt, not_lt.mpr h1, not_lt.mpr h2]
  · intro hge
    refine ⟨?_, ?_, ?_⟩
    · intro h; simp [confidenceColour, not_lt.mpr hge, h]
    · intro h
      simp [confidenceColour, not_lt.mpr hge, h,
        not_lt.mpr (le_of_lt (lt_of_lt_of_le h hge))]
    · intro h1 h2
      simp [confidenceColour, not_lt.mpr hge, not_lt.mpr h1, not_lt.mpr h2]
  · norm_num [confidenceColour]
  · norm_num [confidenceColour]
  · norm_num [confidenceColour]
  · norm_num [confidenceColour]
  · norm_num [confidenceColour]

/-- Closed witness for C5's theorem: with range `(0, 1)` a confidence of 2
is above the upper bound and coloured pure green. -/
theorem confidenceColour_cases_witness :
    confidenceColour (some (0, 1)) 2 = (0, 1, 0) :=
  ((confidenceColour_cases 0 1 2).1 (by norm_num)).2.1 (by norm_num)

/-- C8: for equal-sized depth and confidence rasters the producer emits
exactly `width * height` points, one per raster cell with no filtering, and
the `i`-th point of the batch is built from the `i`-th sample of the
row-major slices (its `z` is the `i`-th depth sample and its confidence the
`i`-th confidence sample), so batch order equals raster row-major scan
order. -/
theorem projectFrame_count_order (width height : ℕ) (fx fy : ℚ)
    (depth conf : List ℚ)
    (hd : depth.length = width * height)
    (hc : conf.length = width * height) :
    (projectFrame width height fx fy depth conf).length = width * height ∧
    ∀ i, i < width * height →
      ∃ p : MyPoint,
        (projectFrame width height fx fy depth conf)[i]? = some p ∧
        depth[i]? = some p.z ∧ conf[i]? = some p.confidence := by
  have hlen : (projectFrame width height fx fy depth conf).length =
      width * height := by
    simp [projectFrame, List.length_zip, List.enum_length, hd, hc]
  refine ⟨hlen, ?_⟩
  intro i hi
  have hiL : i < (projectFrame width height fx fy depth conf).length := by
    rw [hlen]; exact hi
  have hid : i < depth.length := by omega
  have hic : i < conf.length := by omega
  refine ⟨(projectFrame width height fx fy depth conf).get ⟨i, hiL⟩,
    ?_, ?_, ?_⟩
  · simp [List.getElem?_eq_getElem hiL]
  · rw [List.getElem?_eq_getElem hid]
    simp [projectFrame, List.getElem_map, List.getElem_zip, List.getElem_enum]
  · rw [List.getElem?_eq_getElem hic]
    simp [projectFrame, List.getElem_map, List.getElem_zip, List.getElem_enum]

/-- Closed witness for C8's theorem: the 1×1 frame with depth sample 2 and
confidence sample 1 produces exactly one point carrying those samples. -/
theorem projectFrame_count_order_witness :
    (projectFrame 1 1 1 1 [2] [1]).length = 1 * 1 ∧
    ∀ i, i < 1 * 1 →
      ∃ p : MyPoint,
        (projectFrame 1 1 1 1 [2] [1])[i]? = some p ∧
        ([2] : List ℚ)[i]? = some p.z ∧
        ([1] : List ℚ)[i]? = some p.confidence :=
  projectFrame_count_order 1 1 1 1 [2] [1] (by decide) (by decide)

/-- C1: the claim gives the per-cell formula
`x = ((width/2 - column) / fx) * d`, `y = ((height/2 - row) / fy) * d`,
`z = d` and in particular that the center pixel of a frame of depth 2 maps
to `x ≈ 0, y ≈ 0, z = 2`.  The source destructures the enumerated tuple
`(i % width, i / width, d, c)` as `(row, column, d, c)`, i.e. it binds the
column offset to `row` and the row offset to `column`, so `x` is computed
from the row index and `y` from the column index.  On a 4×2 frame of
constant depth 2 the center pixel (row 1, column 2, linear index 6) gets
`x = 2 / fx ≠ 0` and `y = -2 / fy ≠ 0` for every non-zero `fx`, `fy`,
while the claim's formula (here `specPoint`) puts that pixel at
`x = 0, y = 0, z = 2`. -/
theorem projectFrame_center_bug (fx fy : ℚ) (hfx : fx ≠ 0) (hfy : fy ≠ 0) :
    ∃ p : MyPoint,
      (projectFrame 4 2 fx fy (List.replicate 8 2) (List.replicate 8 1))[6]? =
        some p ∧
      p.z = 2 ∧ p.x ≠ 0 ∧ p.y ≠ 0 ∧
      (specPoint 4 2 fx fy 1 2 2 1).x = 0 ∧
      (specPoint 4 2 fx fy 1 2 2 1).y = 0 ∧
      (specPoint 4 2 fx fy 1 2 2 1).z = 2 := by
  refine ⟨MyPoint.mk (1 / fx * 2) ((1 - 2) / fy * 2) 2 1,
    ?_, rfl, ?_, ?_, ?_, ?_, rfl⟩
  · norm_num [projectFrame, List.replicate, List.enum, List.enumFrom]
  · show (1 : ℚ) / fx * 2 ≠ 0
    rw [div_mul_eq_mul_div]
    exact div_ne_zero (by norm_num) hfx
  · show ((1 : ℚ) - 2) / fy * 2 ≠ 0
    rw [div_mul_eq_mul_div]
    exact div_ne_zero (by norm_num) hfy
  · norm_num [specPoint]
  · norm_num [specPoint]

/-- Closed witness for C1's theorem, at `fx = fy = 1`. -/
theorem projectFrame_center_bug_witness :
    ∃ p : MyPoint,
      (projectFrame 4 2 1 1 (List.replicate 8 2) (List.replicate 8 1))[6]? =
        some p ∧
      p.z = 2 ∧ p.x ≠ 0 ∧ p.y ≠ 0 ∧
      (specPoint 4 2 1 1 1 2 2 1).x = 0 ∧
      (specPoint 4 2 1 1 1 2 2 1).y = 0 ∧
      (specPoint 4 2 1 1 1 2 2 1).z = 2 :=
  projectFrame_center_bug 1 1 one_ne_zero one_ne_zero

theorem decodeVarint_encodeVarint (n : ℕ) (r : List ℕ) (h : n < 2 ^ 64) :
    decodeVarint (encodeVarint n ++ r) = some (n, r) := by
  unfold encodeVarint
  split
  case isTrue h1 =>
    simp [decodeVarint, h1]
  case isFalse h1 =>
    split
    case isTrue h2 =>
      show decodeVarint (251 :: n % 256 :: n / 256 % 256 :: r) = some (n, r)
      simp only [decodeVarint]
      norm_num
      omega
    case isFalse h2 =>
      split
      case isTrue h3 =>
        show decodeVarint (252 :: n % 256 :: n / 256 % 256 ::
          n / 256 ^ 2 % 256 :: n / 256 ^ 3 % 256 :: r) = some (n, r)
        simp only [decodeVarint, readU32]
        norm_num
        omega
      case isFalse h3 =>
        show decodeVarint (253 :: n % 2 ^ 32 % 256 :: n % 2 ^ 32 / 256 % 256 ::
          n % 2 ^ 32 / 256 ^ 2 % 256 :: n % 2 ^ 32 / 256 ^ 3 % 256 ::
          n / 2 ^ 32 % 256 :: n / 2 ^ 32 / 256 % 256 ::
          n / 2 ^ 32 / 256 ^ 2 % 256 :: n / 2 ^ 32 / 256 ^ 3 % 256 :: r) =
          some (n, r)
        simp only [decodeVarint, readU32]
        norm_num
        omega

theorem decodePoint_encodePoint (p : WirePoint) (r : List ℕ) (h : p.valid) :
    decodePoint (encodePoint p ++ r) = some (p, r) := by
  obtain ⟨px, py, pz, pc⟩ := p
  obtain ⟨hx, hy, hz, hc⟩ := h
  have hx2 : px < 2 ^ 32 := hx
  have hy2 : py < 2 ^ 32 := hy
  have hz2 : pz < 2 ^ 32 := hz
  have hc2 : pc < 2 ^ 32 := hc
  show decodePoint (px % 256 :: px / 256 % 256 :: px / 256 ^ 2 % 256 ::
    px / 256 ^ 3 % 256 ::
    py % 256 :: py / 256 % 256 :: py / 256 ^ 2 % 256 :: py / 256 ^ 3 % 256 ::
    pz % 256 :: pz / 256 % 256 :: pz / 256 ^ 2 % 256 :: pz / 256 ^ 3 % 256 ::
    pc % 256 :: pc / 256 % 256 :: pc / 256 ^ 2 % 256 :: pc / 256 ^ 3 % 256 ::
    r) = some (⟨px, py, pz, pc⟩, r)
  simp only [decodePoint, readU32, Option.some.injEq, Prod.mk.injEq,
    WirePoint.mk.injEq]
  refine ⟨⟨?_, ?_, ?_, ?_⟩, trivial⟩ <;> omega

theorem decodePoints_flatMap (ps : List WirePoint) (r : List ℕ)
    (h : ∀ p ∈ ps, p.valid) :
    decodePoints ps.length (ps.flatMap encodePoint ++ r) = some (ps, r) := by
  induction ps with
  | nil => rfl
  | cons p ps ih =>
    rw [List.flatMap_cons, List.length_cons, List.append_assoc]
    show decodePoints (ps.length + 1)
      (encodePoint p ++ (ps.flatMap encodePoint ++ r)) = _
    simp only [decodePoints, decodePoint_encodePoint p _ (h p (by simp)),
      ih (fun q hq => h q (by simp [hq]))]

/-- C3: wire-codec round trip.  For every point batch (whose fields are
32-bit patterns and whose length fits the `u64` the length prefix
serializes), encoding it as one wire message and decoding from a byte
stream that begins with those bytes yields the original point sequence, and
the decoder consumes exactly the encoded bytes: any subsequent bytes (such
as the next back-to-back message) are returned untouched. -/
theorem decodeBatch_encodeBatch (ps : List WirePoint) (rest : List ℕ)
    (hv : ∀ p ∈ ps, p.valid) (hlen : ps.length < 2 ^ 64) :
    decodeBatch (encodeBatch ps ++ rest) = some (ps, rest) := by
  rw [encodeBatch, List.append_assoc, decodeBatch,
    decodeVarint_encodeVarint _ _ hlen]
  exact decodePoints_flatMap ps rest hv

/-- Closed witness for C3's theorem: a singleton batch followed by two
further stream bytes decodes to the batch and leaves those bytes. -/
theorem decodeBatch_encodeBatch_witness :
    decodeBatch (encodeBatch [WirePoint.mk 1 2 3 4] ++ [9, 9]) =
      some ([WirePoint.mk 1 2 3 4], [9, 9]) :=
  decodeBatch_encodeBatch [WirePoint.mk 1 2 3 4] [9, 9] (by decide) (by decide)

theorem take_one_append_ne (a b : Char) (l m : RStr)
    (hab : a ≠ b) (xs : RStr) : (a :: l) ++ xs ≠ b :: m := by
  intro hh
  have h2 : ([a] : RStr) = [b] := congrArg (List.take 1) hh
  exact hab (by injection h2)

theorem controlLine_set_max (parse : RStr → Option ℚ) (args : RStr)
    (htrim : trimChars (setMaxDepthCmd ++ args) = setMaxDepthCmd ++ args) :
    controlLine parse (setMaxDepthCmd ++ args) =
      match parse args with
      | some v => ControlEffect.send (Command.setMaxDepth (some v))
      | none => ControlEffect.print "invalid float literal" := by
  have hne : setMaxDepthCmd ++ args ≠ [] := by
    intro hh
    have h2 : (['s'] : RStr) = [] := congrArg (List.take 1) hh
    exact absurd h2 (by decide)
  have hc1 : setMaxDepthCmd ++ args ≠ clearMaxDepthCmd :=
    take_one_append_ne 's' 'c' _ _ (by decide) args
  have hc2 : setMaxDepthCmd ++ args ≠ clearMinDepthCmd :=
    take_one_append_ne 's' 'c' _ _ (by decide) args
  have hc3 : setMaxDepthCmd ++ args ≠ clearConfRangeCmd :=
    take_one_append_ne 's' 'c' _ _ (by decide) args
  have hp : isPrefOf setMaxDepthCmd (setMaxDepthCmd ++ args) = true :=
    isPrefOf_append_self _ _
  simp only [controlLine, htrim, if_neg hne, if_neg hc1, if_neg hc2,
    if_neg hc3, hp, if_true, List.drop_left]

theorem controlLine_set_min (parse : RStr → Option ℚ) (args : RStr)
    (htrim : trimChars (setMinDepthCmd ++ args) = setMinDepthCmd ++ args) :
    controlLine parse (setMinDepthCmd ++ args) =
      match parse args with
      | some v => ControlEffect.send (Command.setMinDepth (some v))
      | none => ControlEffect.print "invalid float literal" := by
  have hne : setMinDepthCmd ++ args ≠ [] := by
    intro hh
    have h2 : (['s'] : RStr) = [] := congrArg (List.take 1) hh
    exact absurd h2 (by decide)
  have hc1 : setMinDepthCmd ++ args ≠ clearMaxDepthCmd :=
    take_one_append_ne 's' 'c' _ _ (by decide) args
  have hc2 : setMinDepthCmd ++ args ≠ clearMinDepthCmd :=
    take_one_append_ne 's' 'c' _ _ (by decide) args
  have hc3 : setMinDepthCmd ++ args ≠ clearConfRangeCmd :=
    take_one_append_ne 's' 'c' _ _ (by decide) args
  have hq1 : ¬ isPrefOf setMaxDepthCmd (setMinDepthCmd ++ args) = true := by
    rw [isPrefOf_append_of_le _ _ _ (by decide)]
    decide
  have hp : isPrefOf setMinDepthCmd (setMinDepthCmd ++ args) = true :=
    isPrefOf_append_self _ _
  simp only [controlLine, htrim, if_neg hne, if_neg hc1, if_neg hc2,
    if_neg hc3, if_neg hq1, hp, if_true, List.drop_left]

theorem controlLine_set_conf (parse : RStr → Option ℚ) (args : RStr)
    (htrim : trimChars (setConfRangeCmd ++ args) = setConfRangeCmd ++ args) :
    controlLine parse (setConfRangeCmd ++ args) =
      match splitOnceSpace args with
      | none => ControlEffect.print "set confidence range <LOW> <HIGH>"
      | some (lowS, highS) =>
        match parse lowS with
        | none => ControlEffect.print "Bad lower bound: invalid float literal"
        | some low =>
          match parse highS with
          | none => ControlEffect.print "Bad higher bound: invalid float literal"
          | some high =>
            ControlEffect.send (Command.setConfidenceRange (some (low, high))) := by
  have hne : setConfRangeCmd ++ args ≠ [] := by
    intro hh
    have h2 : (['s'] : RStr) = [] := congrArg (List.take 1) hh
    exact absurd h2 (by decide)
  have hc1 : setConfRangeCmd ++ args ≠ clearMaxDepthCmd :=
    take_one_append_ne 's' 'c' _ _ (by decide) args
  have hc2 : setConfRangeCmd ++ args ≠ clearMinDepthCmd :=
    take_one_append_ne 's' 'c' _ _ (by decide) args
  have hc3 : setConfRangeCmd ++ args ≠ clearConfRangeCmd :=
    take_one_append_ne 's' 'c' _ _ (by decide) args
  have hq1 : ¬ isPrefOf setMaxDepthCmd (setConfRangeCmd ++ args) = true := by
    rw [isPrefOf_append_of_le _ _ _ (by decide)]
    decide
  have hq2 : ¬ isPrefOf setMinDepthCmd (setConfRangeCmd ++ args) = true := by
    rw [isPrefOf_append_of_le _ _ _ (by decide)]
    decide
  have hp : isPrefOf setConfRangeCmd (setConfRangeCmd ++ args) = true :=
    isPrefOf_append_self _ _
  simp only [controlLine, htrim, if_neg hne, if_neg hc1, if_neg hc2,
    if_neg hc3, if_neg hq1, if_neg hq2, hp, if_true, List.drop_left]

/-- C6: command parsing.  `set confidence range <low> <high>` sends both
bounds as one atomic update exactly when both arguments parse as floats; if
either parse fails an inline error is printed and the filter state is left
unchanged; missing arity (no space in the remainder) prints the usage hint;
`set max depth <f32>` and `set min depth <f32>` update on a successful
parse and print an inline report leaving the state unchanged on failure;
`clear max depth` resets `max_depth` to `none` regardless of the prior
state; an empty line is a no-op; any line matching none of the recognised
forms prints "Unrecognised input".  `parse` ranges over all possible
`str::parse::<f32>` behaviours. -/
theorem control_thread_parsing (parse : RStr → Option ℚ) (st : FilterState)
    (args lowS highS input : RStr) :
    (controlLine parse [] = ControlEffect.nop ∧
      stepFilterState st ControlEffect.nop = st) ∧
    (∀ msg, stepFilterState st (ControlEffect.print msg) = st) ∧
    (controlLine parse clearMaxDepthCmd =
        ControlEffect.send (Command.setMaxDepth none) ∧
      stepFilterState st (controlLine parse clearMaxDepthCmd) =
        { st with max_depth := none }) ∧
    (trimChars (setMaxDepthCmd ++ args) = setMaxDepthCmd ++ args →
      (∀ v, parse args = some v →
        controlLine parse (setMaxDepthCmd ++ args) =
          ControlEffect.send (Command.setMaxDepth (some v)) ∧
        stepFilterState st (controlLine parse (setMaxDepthCmd ++ args)) =
          { st with max_depth := some v }) ∧
      (parse args = none →
        controlLine parse (setMaxDepthCmd ++ args) =
          ControlEffect.print "invalid float literal" ∧
        stepFilterState st (controlLine parse (setMaxDepthCmd ++ args)) = st)) ∧
    (trimChars (setMinDepthCmd ++ args) = setMinDepthCmd ++ args →
      (∀ v, parse args = some v →
        controlLine parse (setMinDepthCmd ++ args) =
          ControlEffect.send (Command.setMinDepth (some v)) ∧
        stepFilterState st (controlLine parse (setMinDepthCmd ++ args)) =
          { st with min_depth := some v }) ∧
      (parse args = none →
        controlLine parse (setMinDepthCmd ++ args) =
          ControlEffect.print "invalid float literal" ∧
        stepFilterState st (controlLine parse (setMinDepthCmd ++ args)) = st)) ∧
    (trimChars (setConfRangeCmd ++ args) = setConfRangeCmd ++ args →
      (splitOnceSpace args = none →
        controlLine parse (setConfRangeCmd ++ args) =
          ControlEffect.print "set confidence range <LOW> <HIGH>" ∧
        stepFilterState st (controlLine parse (setConfRangeCmd ++ args)) = st) ∧
      (splitOnceSpace args = some (lowS, highS) →
        (∀ l h, parse lowS = some l → parse highS = some h →
          controlLine parse (setConfRangeCmd ++ args) =
            ControlEffect.send (Command.setConfidenceRange (some (l, h))) ∧
          stepFilterState st (controlLine parse (setConfRangeCmd ++ args)) =
            { st with confidence_range := some (l, h) }) ∧
        ((parse lowS = none ∨ parse highS = none) →
          (∃ msg, controlLine parse (setConfRangeCmd ++ args) =
            ControlEffect.print msg) ∧
          stepFilterState st (controlLine parse (setConfRangeCmd ++ args)) =
            st))) ∧
    (trimChars input = input → input ≠ [] →
      input ≠ clearMaxDepthCmd → input ≠ clearMinDepthCmd →
      input ≠ clearConfRangeCmd →
      isPrefOf setMaxDepthCmd input = false →
      isPrefOf setMinDepthCmd input = false →
      isPrefOf setConfRangeCmd input = false →
      controlLine parse input = ControlEffect.print "Unrecognised input") := by
  refine ⟨⟨rfl, rfl⟩, fun msg => rfl, ⟨rfl, rfl⟩, ?_, ?_, ?_, ?_⟩
  · intro htrim
    have he := controlLine_set_max parse args htrim
    constructor
    · intro v hv
      rw [he, hv]
      exact ⟨rfl, rfl⟩
    · intro hv
      rw [he, hv]
      exact ⟨rfl, rfl⟩
  · intro htrim
    have he := controlLine_set_min parse args htrim
    constructor
    · intro v hv
      rw [he, hv]
      exact ⟨rfl, rfl⟩
    · intro hv
      rw [he, hv]
      exact ⟨rfl, rfl⟩
  · intro htrim
    have he := controlLine_set_conf parse args htrim
    constructor
    · intro hsplit
      rw [he, hsplit]
      exact ⟨rfl, rfl⟩
    · intro hsplit
      constructor
      · intro l h hl hh
        rw [he, hsplit]
        dsimp only
        rw [hl, hh]
        exact ⟨rfl, rfl⟩
      · intro hfail
        rcases hfail with hl | hh
        · rw [he, hsplit]
          dsimp only
          rw [hl]
          exact ⟨⟨_, rfl⟩, rfl⟩
        · cases hl : parse lowS with
          | none =>
            rw [he, hsplit]
            dsimp only
            rw [hl]
            exact ⟨⟨_, rfl⟩, rfl⟩
          | some l =>
            rw [he, hsplit]
            dsimp only
            rw [hl]
            dsimp only
            rw [hh]
            exact ⟨⟨_, rfl⟩, rfl⟩
  · intro htrim hne hc1 hc2 hc3 hp1 hp2 hp3
    simp only [controlLine, htrim, if_neg hne, if_neg hc1, if_neg hc2,
      if_neg hc3, hp1, hp2, hp3, Bool.false_eq_true, if_false]


/-- A concrete parse function for the closed witness below: `"1"` parses to
1, `"2"` to 2, everything else fails. -/
def demoParse : RStr → Option ℚ :=
  fun s => if s = ['1'] then some 1 else if s = ['2'] then some 2 else none

/-- Closed witness for C6's theorem: `set confidence range 1 2` sends both
bounds as one atomic update and the filter state receives exactly that
pair. -/
theorem control_thread_parsing_witness :
    controlLine demoParse (setConfRangeCmd ++ ['1', ' ', '2']) =
      ControlEffect.send (Command.setConfidenceRange (some (1, 2))) ∧
    stepFilterState (FilterState.mk none none none)
      (controlLine demoParse (setConfRangeCmd ++ ['1', ' ', '2'])) =
      FilterState.mk none none (some (1, 2)) :=
  (((control_thread_parsing demoParse (FilterState.mk none none none)
      ['1', ' ', '2'] ['1'] ['2'] []).2.2.2.2.2.1
      (by decide)).2 (by decide)).1 1 2 (by rfl) (by rfl)

end ArducamTof
